import Mathlib

/-!
Shallow embedding of the query-editor state-transition core of
`src/src/app.tsx` (tosuke-lab/predicateeditor): the data model
(`Field`, `Method`, `Predicate`, `Query`), the compatibility table
`allowedMethods`, and the two reducers `methodReducer` and
`queryReducer`, together with theorems about them.

JavaScript semantics are embedded explicitly: out-of-range array reads
(`preds[i]`) yield `undefined`, so a subsequent property access throws a
`TypeError`; `throw new Error(msg)` sites become distinct typed errors.
The reducers therefore return `Except QueryError Query`.  Indices are
modelled as natural numbers (the UI only ever dispatches indices
`0 ≤ i`).
-/

namespace PredicateEditor

/-- `type QueryType = "all" | "any"` -/
inductive QueryType where
  | all
  | any
deriving DecidableEq, Repr

/-- `const initQueryType: QueryType = "all"` -/
def initQueryType : QueryType := .all

/-- `type Field = "title" | "body"` -/
inductive Field where
  | title
  | body
deriving DecidableEq, Repr

/-- `const initField = "title"` -/
def initField : Field := .title

/-- The tag set `Method["type"] = "equal" | "match"`. -/
inductive MethodKind where
  | equal
  | «match»
deriving DecidableEq, Repr, Inhabited

/-- `type Method = { type: "equal"; value: string } | { type: "match"; value: string }` -/
inductive Method where
  | equal (value : String)
  | «match» (value : String)
deriving DecidableEq, Repr

/-- The `type` tag of a `Method` value. -/
def Method.kind : Method → MethodKind
  | .equal _ => .equal
  | .«match» _ => .«match»

/-- The `value` operand of a `Method` value. -/
def Method.value : Method → String
  | .equal v => v
  | .«match» v => v

/-- `const allowedMethods: Record<Field, ReadonlyArray<Method["type"]>> =
    { title: ["equal"], body: ["equal", "match"] }` -/
def allowedMethods : Field → List MethodKind
  | .title => [.equal]
  | .body => [.equal, .«match»]

/-- `const initMethods: Record<Method["type"], Method> =
    { equal: {type:"equal",value:""}, match: {type:"match",value:""} }` -/
def initMethods : MethodKind → Method
  | .equal => .equal ""
  | .«match» => .«match» ""

/-- `const initPredicateMethod = initMethods["equal"]` -/
def initPredicateMethod : Method := initMethods .equal

/-- The tag set `Predicate["type"] = "field" | "query"`. -/
inductive PredicateType where
  | field
  | query
deriving DecidableEq, Repr

mutual
/-- `type Predicate = FieldPredicate | QueryPredicate`, the tagged union of
`{type:"field"; field; method}` and `{type:"query"; query}`. -/
inductive Predicate where
  | field (field : Field) (method : Method)
  | query (query : Query)
deriving Repr

/-- `type Query = { type: QueryType; predicates: readonly Predicate[] }` -/
inductive Query where
  | mk (type : QueryType) (predicates : List Predicate)
deriving Repr
end

/-- The `type` tag of a `Predicate` value. -/
def Predicate.ptype : Predicate → PredicateType
  | .field _ _ => .field
  | .query _ => .query

/-- Projection `query.type`. -/
def Query.qtype : Query → QueryType
  | .mk t _ => t

/-- Projection `query.predicates`. -/
def Query.predicates : Query → List Predicate
  | .mk _ ps => ps

/-- `const initFieldPredicate: Predicate = {type:"field", field: initField, method: initPredicateMethod}` -/
def initFieldPredicate : Predicate := .field initField initPredicateMethod

/-- `const initQuery: Query = { type: initQueryType, predicates: [] }` -/
def initQuery : Query := .mk initQueryType []

/-- `const initQueryPredicate: Predicate = { type: "query", query: initQuery }` -/
def initQueryPredicate : Predicate := .query initQuery

/-- `type MethodAction = {type:"updateType"; methodType} | {type:"updateTextValue"; value}` -/
inductive MethodAction where
  | updateType (methodType : MethodKind)
  | updateTextValue (value : String)
deriving DecidableEq, Repr

/-- `type QueryAction` of `src/src/app.tsx`: the seven query actions. -/
inductive QueryAction where
  | updateType (queryType : QueryType)
  | insertFirst (predicateType : PredicateType)
  | insertAfterNth (predicateType : PredicateType) (index : Nat)
  | removeNth (index : Nat)
  | updateNthQuery (index : Nat) (action : QueryAction)
  | updateNthField (index : Nat) (field : Field)
  | updateNthMethod (index : Nat) (action : MethodAction)
deriving Repr

/-- The ways `queryReducer` can abort.  `typeError` is the JavaScript
`TypeError` raised by reading `.type` (or `.method`) off `undefined` when an
index is out of range; `notAQuery i` and `notAFieldType i` are the two
`throw new Error(...)` sites (messages "`i`th predicate is not a query" and
"`i`th predicate is not a field type"). -/
inductive QueryError where
  | typeError
  | notAQuery (index : Nat)
  | notAFieldType (index : Nat)
deriving DecidableEq, Repr

/-- The spec-level classification: both thrown `Error`s report that the
predicate at the index has the wrong variant. -/
def QueryError.isPredicateTypeMismatch : QueryError → Bool
  | .typeError => false
  | .notAQuery _ => true
  | .notAFieldType _ => true

/-- `const methodReducer: React.Reducer<Method, MethodAction>` — total and pure. -/
def methodReducer (method : Method) (action : MethodAction) : Method :=
  match action with
  | .updateType methodType => initMethods methodType
  | .updateTextValue value =>
    match method with
    | .equal _ => .equal value
    | .«match» _ => .«match» value

/-- `const queryReducer: React.Reducer<Query, QueryAction>`, with the
JavaScript failure modes made explicit in `Except`. -/
def queryReducer (query : Query) (action : QueryAction) : Except QueryError Query :=
  match action with
  | .updateType queryType =>
    .ok (.mk queryType query.predicates)
  | .insertFirst predicateType =>
    let toInsert :=
      if predicateType = PredicateType.field then initFieldPredicate
      else initQueryPredicate
    .ok (.mk query.qtype (toInsert :: query.predicates))
  | .insertAfterNth predicateType i =>
    let preds := query.predicates
    match preds[i]? with
    | none => .error .typeError
    | some cursor =>
      let toInsert :=
        if cursor.ptype = predicateType then cursor
        else if predicateType = PredicateType.field then initFieldPredicate
        else initQueryPredicate
      .ok (.mk query.qtype (preds.take (i + 1) ++ toInsert :: preds.drop (i + 1)))
  | .removeNth i =>
    let preds := query.predicates
    .ok (.mk query.qtype (preds.take i ++ preds.drop (i + 1)))
  | .updateNthQuery i subAction =>
    match query.predicates[i]? with
    | none => .error .typeError
    | some (.field _ _) => .error (.notAQuery i)
    | some (.query nested) =>
      match queryReducer nested subAction with
      | .error e => .error e
      | .ok nested2 =>
        .ok (.mk query.qtype (query.predicates.set i (.query nested2)))
  | .updateNthField i f =>
    match query.predicates[i]? with
    | none => .error .typeError
    | some (.query _) => .error (.notAFieldType i)
    | some (.field _ m) =>
      let method :=
        if (allowedMethods f).contains m.kind then m
        else initMethods ((allowedMethods f).headI)
      .ok (.mk query.qtype (query.predicates.set i (.field f method)))
  | .updateNthMethod i mAction =>
    match query.predicates[i]? with
    | none => .error .typeError
    | some (.query _) => .error (.notAFieldType i)
    | some (.field fld m) =>
      let method := methodReducer m mAction
      if (allowedMethods fld).contains method.kind then
        .ok (.mk query.qtype (query.predicates.set i (.field fld method)))
      else
        .ok query

/-- Fold a list of actions over a query, stopping at the first failure. -/
def applyActions (query : Query) : List QueryAction → Except QueryError Query
  | [] => .ok query
  | a :: rest =>
    match queryReducer query a with
    | .error e => .error e
    | .ok q2 => applyActions q2 rest

/-- The default predicate of a requested variant kind, as used by
`insertFirst` and `insertAfterNth` (spec §4.2). -/
def defaultPredicate : PredicateType → Predicate
  | .field => initFieldPredicate
  | .query => initQueryPredicate

mutual
/-- Spec invariant 1 at a single node: a `FieldPredicate` satisfies
`method.kind ∈ allowed(field)`; a `QueryPredicate` satisfies it in its
nested query. -/
def Predicate.validB : Predicate → Bool
  | .field f m => (allowedMethods f).contains m.kind
  | .query q => Query.validB q

/-- Spec invariant 1 for a whole tree: every `FieldPredicate` in the tree
satisfies `method.kind ∈ allowed(field)`. -/
def Query.validB : Query → Bool
  | .mk _ ps => predsValidB ps

/-- `Predicate.validB` conjoined over a list. -/
def predsValidB : List Predicate → Bool
  | [] => true
  | p :: ps => Predicate.validB p && predsValidB ps
end

/-! ### Helper lemmas -/

theorem contains_iff_mem (l : List MethodKind) (k : MethodKind) :
    l.contains k = true ↔ k ∈ l :=
  List.elem_iff

theorem predsValidB_iff (ps : List Predicate) :
    predsValidB ps = true ↔ ∀ p ∈ ps, Predicate.validB p = true := by
  induction ps with
  | nil => simp [predsValidB]
  | cons p ps ih => simp [predsValidB, ih]

theorem validB_mk (t : QueryType) (ps : List Predicate) :
    Query.validB (.mk t ps) = predsValidB ps := by
  simp [Query.validB]

theorem removeNth_ok_of_le (q : Query) (i : Nat) (h : q.predicates.length ≤ i) :
    queryReducer q (.removeNth i) = .ok q := by
  cases q with
  | mk t ps =>
    simp only [queryReducer, Query.qtype, Query.predicates] at *
    rw [List.take_of_length_le h, List.drop_eq_nil_of_le (by omega), List.append_nil]

/-! ### Claim theorems -/

/-- C9: the method transition function is total (it is a Lean function on all
of `Method × MethodAction`) and satisfies: `SetKind k` returns the default
instance for kind `k`, whose kind is `k` and whose operand is empty, with no
field-compatibility check; `SetOperand s` replaces the operand with `s` and
keeps the kind, for every kind of the current method. -/
theorem methodReducer_spec (m : Method) (k : MethodKind) (s : String) :
    methodReducer m (.updateType k) = initMethods k ∧
    (initMethods k).kind = k ∧
    (initMethods k).value = "" ∧
    (methodReducer m (.updateTextValue s)).kind = m.kind ∧
    (methodReducer m (.updateTextValue s)).value = s := by
  cases m <;> cases k <;>
    simp [methodReducer, initMethods, Method.kind, Method.value]

/-- C7: for every query `q` and variant kind `k`, applying `InsertFirst k`
and then `RemoveAt 0` yields a query structurally equal to `q`. -/
theorem insertFirst_removeAt_inverse (q : Query) (k : PredicateType) :
    (queryReducer q (.insertFirst k)).bind
      (fun q1 => queryReducer q1 (.removeNth 0)) = .ok q := by
  cases q with
  | mk t ps =>
    cases k <;>
      simp [queryReducer, Except.bind, Query.qtype, Query.predicates]

/-- C10: for every query `q` and index `i ≥ length (q.predicates)`,
`RemoveAt i` does not fail and returns a query structurally equal to `q`:
the out-of-range removal is a silent no-op. -/
theorem removeNth_out_of_range_noop (q : Query) (i : Nat)
    (h : q.predicates.length ≤ i) :
    queryReducer q (.removeNth i) = .ok q :=
  removeNth_ok_of_le q i h

/-- C10 witness: `RemoveAt 5` on a concrete 2-predicate query returns it
unchanged. -/
theorem removeNth_out_of_range_noop_witness :
    queryReducer (.mk .all [.field .title (.equal "a"), .field .body (.«match» "b")])
        (.removeNth 5)
      = .ok (.mk .all [.field .title (.equal "a"), .field .body (.«match» "b")]) :=
  removeNth_out_of_range_noop
    (.mk .all [.field .title (.equal "a"), .field .body (.«match» "b")]) 5
    (by decide)

/-- C2 counterexample: `RemoveAt 5` on a concrete 2-predicate query does NOT
fail — it succeeds and returns the query unchanged — contradicting the claim
that it fails with `IndexOutOfRange`. -/
theorem removeAt5_succeeds :
    queryReducer (.mk .all [.field .title (.equal "x"), .field .title (.equal "y")])
        (.removeNth 5)
      = .ok (.mk .all [.field .title (.equal "x"), .field .title (.equal "y")]) := by
  rfl

/-- C2 (amended): for every query `q` and index `i ≥ length (q.predicates)`:
`RemoveAt i` succeeds, returning `q` unchanged (no failure of any kind),
while `InsertAfter`, `UpdateNestedQuery`, `SetField` and `UpdateMethod` at
`i` fail with the untyped JavaScript `TypeError` from reading a property of
`undefined` — which is not classified as `PredicateTypeMismatch`, but is
also not a distinct `IndexOutOfRange` failure (no such failure exists in the
code). -/
theorem out_of_range_behavior (q : Query) (i : Nat) (k : PredicateType)
    (sub : QueryAction) (f : Field) (ma : MethodAction)
    (h : q.predicates.length ≤ i) :
    queryReducer q (.removeNth i) = .ok q ∧
    queryReducer q (.insertAfterNth k i) = .error .typeError ∧
    queryReducer q (.updateNthQuery i sub) = .error .typeError ∧
    queryReducer q (.updateNthField i f) = .error .typeError ∧
    queryReducer q (.updateNthMethod i ma) = .error .typeError ∧
    QueryError.typeError.isPredicateTypeMismatch = false := by
  have hnone : q.predicates[i]? = none := List.getElem?_eq_none h
  refine ⟨removeNth_ok_of_le q i h, ?_, ?_, ?_, ?_, rfl⟩ <;>
    simp [queryReducer, hnone]

/-- C2 (amended) witness: the amended behavior at a concrete 2-predicate
query and index 5. -/
theorem out_of_range_behavior_witness :
    queryReducer (.mk .all [.field .title (.equal "x"), .field .title (.equal "y")])
        (.insertAfterNth .field 5)
      = .error .typeError :=
  (out_of_range_behavior
    (.mk .all [.field .title (.equal "x"), .field .title (.equal "y")]) 5
    .field (.removeNth 0) .title (.updateTextValue "z") (by decide)).2.1

/-- C8: for every root whose predicate at index 0 is a `QueryPredicate`
containing exactly one field predicate, `UpdateNestedQuery 0 (SetField 0 body)`
changes exactly the nested predicate's field (its method is kept, since every
method kind is allowed for `body`) and leaves the root's combinator, the
root's predicate count, and every other root predicate unchanged. -/
theorem updateNestedQuery_frame (t qt : QueryType) (f : Field) (m : Method)
    (rest : List Predicate) :
    queryReducer (.mk t (.query (.mk qt [.field f m]) :: rest))
        (.updateNthQuery 0 (.updateNthField 0 .body))
      = .ok (.mk t (.query (.mk qt [.field .body m]) :: rest)) := by
  cases m <;>
    simp [queryReducer, Query.qtype, Query.predicates, allowedMethods,
      Method.kind, List.set]

/-- C3: at an in-range index, `UpdateNestedQuery` on a `FieldPredicate`
fails with the "not a query" error, and `SetField` / `UpdateMethod` on a
`QueryPredicate` fail with the "not a field type" error; both errors are
classified as `PredicateTypeMismatch`. -/
theorem in_range_type_mismatch (q : Query) (i : Nat) (sub : QueryAction)
    (f : Field) (ma : MethodAction) :
    (∀ fld m, q.predicates[i]? = some (.field fld m) →
      queryReducer q (.updateNthQuery i sub) = .error (.notAQuery i) ∧
      (QueryError.notAQuery i).isPredicateTypeMismatch = true) ∧
    (∀ nested, q.predicates[i]? = some (.query nested) →
      queryReducer q (.updateNthField i f) = .error (.notAFieldType i) ∧
      queryReducer q (.updateNthMethod i ma) = .error (.notAFieldType i) ∧
      (QueryError.notAFieldType i).isPredicateTypeMismatch = true) := by
  constructor
  · intro fld m h
    exact ⟨by simp [queryReducer, h], rfl⟩
  · intro nested h
    exact ⟨by simp [queryReducer, h], by simp [queryReducer, h], rfl⟩

/-- C3 witness: both mismatch directions at concrete one-predicate queries. -/
theorem in_range_type_mismatch_witness :
    queryReducer (.mk .all [.field .title (.equal "x")])
        (.updateNthQuery 0 (.removeNth 0)) = .error (.notAQuery 0) ∧
    queryReducer (.mk .all [.query (.mk .any [])])
        (.updateNthMethod 0 (.updateTextValue "z")) = .error (.notAFieldType 0) :=
  ⟨((in_range_type_mismatch (.mk .all [.field .title (.equal "x")]) 0
      (.removeNth 0) .title (.updateTextValue "z")).1 .title (.equal "x") rfl).1,
   (((in_range_type_mismatch (.mk .all [.query (.mk .any [])]) 0
      (.removeNth 0) .title (.updateTextValue "z")).2 (.mk .any []) rfl).2).1⟩

/-- C4: inserting after an in-range index `i` places exactly one new
predicate immediately after position `i`, keeping all other predicates in
relative order; the inserted value is the predicate currently at `i` when
its variant kind is the requested one, and the default instance of the
requested variant otherwise. -/
theorem insertAfterNth_spec (q : Query) (i : Nat) (k : PredicateType)
    (cursor : Predicate) (h : q.predicates[i]? = some cursor) :
    queryReducer q (.insertAfterNth k i) = .ok (.mk q.qtype
      (q.predicates.take (i + 1) ++
        (if cursor.ptype = k then cursor else defaultPredicate k)
          :: q.predicates.drop (i + 1))) := by
  cases k <;> simp [queryReducer, h, defaultPredicate]

/-- C4 witness: inserting a field predicate next to the filled-in field
predicate `field: body, method: match "abc"` duplicates that same value. -/
theorem insertAfterNth_spec_witness :
    queryReducer (.mk .all [.field .body (.«match» "abc")]) (.insertAfterNth .field 0)
      = .ok (.mk .all [.field .body (.«match» "abc"), .field .body (.«match» "abc")]) := by
  simpa using insertAfterNth_spec (.mk .all [.field .body (.«match» "abc")]) 0
    .field (.field .body (.«match» "abc")) rfl

/-- C5: `SetField i f` on a `FieldPredicate` replaces the field with `f`;
the method is kept when its kind is in `allowed f`, and otherwise reset to
the default instance of the first kind of `allowed f`. -/
theorem updateNthField_spec (q : Query) (i : Nat) (f fld : Field) (m : Method)
    (h : q.predicates[i]? = some (.field fld m)) :
    queryReducer q (.updateNthField i f) = .ok (.mk q.qtype
      (q.predicates.set i (.field f
        (if m.kind ∈ allowedMethods f then m
         else initMethods ((allowedMethods f).headI))))) := by
  by_cases hm : m.kind ∈ allowedMethods f
  · simp [queryReducer, h, hm, (contains_iff_mem _ _).mpr hm]
  · have hc : (allowedMethods f).contains m.kind = false := by
      rw [Bool.eq_false_iff]
      intro hcon
      exact hm ((contains_iff_mem _ _).mp hcon)
    simp [queryReducer, h, hm, hc]

/-- C5 witness: from `FieldPredicate{field: body, method: match "x"}`,
`SetField i title` yields `FieldPredicate{field: title, method: equal ""}`. -/
theorem updateNthField_spec_witness :
    queryReducer (.mk .all [.field .body (.«match» "x")]) (.updateNthField 0 .title)
      = .ok (.mk .all [.field .title (.equal "")]) := by
  simpa [allowedMethods, initMethods, Method.kind] using
    updateNthField_spec (.mk .all [.field .body (.«match» "x")]) 0 .title .body
      (.«match» "x") rfl

/-- C6: `UpdateMethod i ma` on a `FieldPredicate` computes the candidate via
the method transition function; when the candidate's kind is not allowed for
the field the action is a no-op returning the tree unchanged, and otherwise
the method is replaced by the candidate. -/
theorem updateNthMethod_spec (q : Query) (i : Nat) (ma : MethodAction)
    (fld : Field) (m : Method)
    (h : q.predicates[i]? = some (.field fld m)) :
    queryReducer q (.updateNthMethod i ma) =
      if (methodReducer m ma).kind ∈ allowedMethods fld then
        .ok (.mk q.qtype (q.predicates.set i (.field fld (methodReducer m ma))))
      else .ok q := by
  by_cases hm : (methodReducer m ma).kind ∈ allowedMethods fld
  · simp [queryReducer, h, hm, (contains_iff_mem _ _).mpr hm]
  · have hc : (allowedMethods fld).contains (methodReducer m ma).kind = false := by
      rw [Bool.eq_false_iff]
      intro hcon
      exact hm ((contains_iff_mem _ _).mp hcon)
    simp [queryReducer, h, hm, hc]

/-- C6 witness: from `FieldPredicate{field: title, method: equal "x"}`,
`UpdateMethod i (SetKind match)` leaves the tree unchanged. -/
theorem updateNthMethod_spec_witness :
    queryReducer (.mk .all [.field .title (.equal "x")])
        (.updateNthMethod 0 (.updateType .«match»))
      = .ok (.mk .all [.field .title (.equal "x")]) := by
  simpa [methodReducer, initMethods, allowedMethods, Method.kind] using
    updateNthMethod_spec (.mk .all [.field .title (.equal "x")]) 0
      (.updateType .«match») .title (.equal "x") rfl

/-! ### Invariant preservation (C1) -/

theorem validB_field_iff (f : Field) (m : Method) :
    Predicate.validB (.field f m) = true ↔ m.kind ∈ allowedMethods f := by
  simp [Predicate.validB, contains_iff_mem]

theorem validB_query_iff (q : Query) :
    Predicate.validB (.query q) = Query.validB q := by
  simp [Predicate.validB]

theorem defaultPredicate_validB (k : PredicateType) :
    Predicate.validB (defaultPredicate k) = true := by
  cases k <;> rfl

theorem headI_mem_allowedMethods (f : Field) :
    (allowedMethods f).headI ∈ allowedMethods f := by
  cases f <;> decide

theorem kind_initMethods (k : MethodKind) : (initMethods k).kind = k := by
  cases k <;> rfl

theorem queryReducer_preserves_validB (a : QueryAction) :
    ∀ q q2 : Query, Query.validB q = true → queryReducer q a = .ok q2 →
      Query.validB q2 = true := by
  induction a with
  | updateType c =>
    intro q q2 hv h
    cases q with
    | mk t ps =>
      simp [queryReducer, Query.predicates] at h
      rw [← h, validB_mk]
      rw [validB_mk] at hv
      exact hv
  | insertFirst k =>
    intro q q2 hv h
    cases q with
    | mk t ps =>
      rw [validB_mk, predsValidB_iff] at hv
      cases k <;>
        simp [queryReducer, Query.predicates, Query.qtype] at h <;>
        rw [← h, validB_mk, predsValidB_iff] <;>
        intro p hp <;>
        rcases List.mem_cons.mp hp with heq | hmem
      · rw [heq]; rfl
      · exact hv p hmem
      · rw [heq]; rfl
      · exact hv p hmem
  | insertAfterNth k i =>
    intro q q2 hv h
    cases q with
    | mk t ps =>
      rw [validB_mk, predsValidB_iff] at hv
      cases hq : ps[i]? with
      | none => simp [queryReducer, Query.predicates, hq] at h
      | some cursor =>
        have hcur : Predicate.validB cursor = true :=
          hv cursor (List.getElem?_mem hq)
        simp only [queryReducer, Query.predicates, Query.qtype, hq] at h
        simp only [Except.ok.injEq] at h
        rw [← h, validB_mk, predsValidB_iff]
        intro p hp
        rcases List.mem_append.mp hp with htake | hrest
        · exact hv p ((List.take_sublist _ _).subset htake)
        · rcases List.mem_cons.mp hrest with heq | hdrop
          · rw [heq]
            split
            · exact hcur
            · split
              · rfl
              · rfl
          · exact hv p ((List.drop_sublist _ _).subset hdrop)
  | removeNth i =>
    intro q q2 hv h
    cases q with
    | mk t ps =>
      rw [validB_mk, predsValidB_iff] at hv
      simp [queryReducer, Query.predicates, Query.qtype] at h
      rw [← h, validB_mk, predsValidB_iff]
      intro p hp
      rcases List.mem_append.mp hp with htake | hdrop
      · exact hv p ((List.take_sublist _ _).subset htake)
      · exact hv p ((List.drop_sublist _ _).subset hdrop)
  | updateNthQuery i sub ih =>
    intro q q2 hv h
    cases q with
    | mk t ps =>
      rw [validB_mk, predsValidB_iff] at hv
      cases hq : ps[i]? with
      | none => simp [queryReducer, Query.predicates, hq] at h
      | some p =>
        cases p with
        | field fld m => simp [queryReducer, Query.predicates, hq] at h
        | query nested =>
          cases hr : queryReducer nested sub with
          | error e => simp [queryReducer, Query.predicates, hq, hr] at h
          | ok nested2 =>
            simp only [queryReducer, Query.predicates, Query.qtype, hq, hr] at h
            simp only [Except.ok.injEq] at h
            rw [← h, validB_mk, predsValidB_iff]
            intro p hp
            rcases List.mem_or_eq_of_mem_set hp with hmem | heq
            · exact hv p hmem
            · rw [heq, validB_query_iff]
              have hnested : Query.validB nested = true := by
                rw [← validB_query_iff]
                exact hv _ (List.getElem?_mem hq)
              exact ih nested nested2 hnested hr
  | updateNthField i f =>
    intro q q2 hv h
    cases q with
    | mk t ps =>
      rw [validB_mk, predsValidB_iff] at hv
      cases hq : ps[i]? with
      | none => simp [queryReducer, Query.predicates, hq] at h
      | some p =>
        cases p with
        | query nested => simp [queryReducer, Query.predicates, hq] at h
        | field fld m =>
          simp only [queryReducer, Query.predicates, Query.qtype, hq] at h
          simp only [Except.ok.injEq] at h
          rw [← h, validB_mk, predsValidB_iff]
          intro p hp
          rcases List.mem_or_eq_of_mem_set hp with hmem | heq
          · exact hv p hmem
          · rw [heq, validB_field_iff]
            split
            · rename_i hc
              exact (contains_iff_mem _ _).mp hc
            · rw [kind_initMethods]
              exact headI_mem_allowedMethods f
  | updateNthMethod i ma =>
    intro q q2 hv h
    cases q with
    | mk t ps =>
      rw [validB_mk, predsValidB_iff] at hv
      cases hq : ps[i]? with
      | none => simp [queryReducer, Query.predicates, hq] at h
      | some p =>
        cases p with
        | query nested => simp [queryReducer, Query.predicates, hq] at h
        | field fld m =>
          simp only [queryReducer, Query.predicates, Query.qtype, hq] at h
          by_cases hc : (allowedMethods fld).contains (methodReducer m ma).kind = true
          · rw [if_pos hc] at h
            simp only [Except.ok.injEq] at h
            rw [← h, validB_mk, predsValidB_iff]
            intro p hp
            rcases List.mem_or_eq_of_mem_set hp with hmem | heq
            · exact hv p hmem
            · rw [heq, validB_field_iff]
              exact (contains_iff_mem _ _).mp hc
          · rw [if_neg hc] at h
            simp only [Except.ok.injEq] at h
            rw [← h, validB_mk, predsValidB_iff]
            exact hv

theorem applyActions_preserves_validB (as : List QueryAction) :
    ∀ q q2 : Query, Query.validB q = true → applyActions q as = .ok q2 →
      Query.validB q2 = true := by
  induction as with
  | nil =>
    intro q q2 hv h
    simp [applyActions] at h
    rw [← h]
    exact hv
  | cons a rest ih =>
    intro q q2 hv h
    cases hr : queryReducer q a with
    | error e => simp [applyActions, hr] at h
    | ok q1 =>
      simp only [applyActions, hr] at h
      exact ih q1 q2 (queryReducer_preserves_validB a q q1 hv hr) h

/-- C1: for every finite sequence of actions applied from the empty root
query (ALL, no predicates) in which every step succeeds, every
`FieldPredicate` in the resulting tree satisfies
`method.kind ∈ allowed(field)`, where `allowed(title) = [equal]` and
`allowed(body) = [equal, match]`. -/
theorem applyActions_initQuery_validB (as : List QueryAction) (q2 : Query)
    (h : applyActions initQuery as = .ok q2) : Query.validB q2 = true :=
  applyActions_preserves_validB as initQuery q2 rfl h

/-- C1 witness: a concrete successful action sequence from the empty root,
whose result the theorem certifies valid. -/
theorem applyActions_initQuery_validB_witness :
    Query.validB (.mk .any [.field .body (.«match» "hi"), .query (.mk .all [])]) = true :=
  applyActions_initQuery_validB
    [.insertFirst .query, .insertFirst .field, .updateNthField 0 .body,
     .updateNthMethod 0 (.updateType .«match»),
     .updateNthMethod 0 (.updateTextValue "hi"), .updateType .any]
    (.mk .any [.field .body (.«match» "hi"), .query (.mk .all [])]) rfl

end PredicateEditor
